import Mathlib

/-!
Verification of the RAG assistant `src/assistente_normas/assistant.py`.

The Python program is glue over LangChain: its observable control flow and
string post-processing are embedded here as executable Lean definitions.
External effects (PDF loading, FAISS index load/build, the LLM call, user
input) are modelled as explicit inputs: each fallible external call becomes
an `Except`-valued oracle value supplied to the function that performs it,
and the function's branching on success/failure is translated line by line
from the source.
-/

/-! ## Python string primitives used by the source -/

/-- Whitespace test matching Python `str.strip` on the whitespace characters
that can occur in the program's strings (space, tab, LF, CR, VT, FF). -/
def isPySpace (c : Char) : Bool :=
  c = ' ' || c = '\t' || c = '\n' || c = '\x0d' || c = '\x0b' || c = '\x0c'

/-- Python `str.strip()`: remove leading and trailing whitespace. -/
def pyStrip (s : String) : String :=
  String.mk (((s.data.dropWhile isPySpace).reverse.dropWhile isPySpace).reverse)

/-- The ASCII uppercase-to-lowercase mapping. -/
def upperLowerTable : List (Char × Char) :=
  [('A', 'a'), ('B', 'b'), ('C', 'c'), ('D', 'd'), ('E', 'e'), ('F', 'f'),
   ('G', 'g'), ('H', 'h'), ('I', 'i'), ('J', 'j'), ('K', 'k'), ('L', 'l'),
   ('M', 'm'), ('N', 'n'), ('O', 'o'), ('P', 'p'), ('Q', 'q'), ('R', 'r'),
   ('S', 's'), ('T', 't'), ('U', 'u'), ('V', 'v'), ('W', 'w'), ('X', 'x'),
   ('Y', 'y'), ('Z', 'z')]

/-- ASCII lowercase of one character; models Python `str.lower` on the ASCII
range, which is all the exit-sentinel comparison `query.lower()` depends on. -/
def asciiLower (c : Char) : Char :=
  match upperLowerTable.find? (fun p => p.1 == c) with
  | some p => p.2
  | none => c

/-- Python `str.lower()` (ASCII fragment, see `asciiLower`). -/
def pyLower (s : String) : String :=
  String.mk (s.data.map asciiLower)

/-- Python `os.path.basename` (POSIX): the part after the last slash. -/
def pyBasename (s : String) : String :=
  String.mk ((s.data.reverse.takeWhile (fun c => c != '/')).reverse)

/-- Python `dict.get(key, default)` over an association-list model of the
LangChain `Document.metadata` dictionary. -/
def pyDictGet (m : List (String × String)) (k : String) (dflt : String) : String :=
  match m.find? (fun p => p.1 == k) with
  | some p => p.2
  | none => dflt

/-- Substring test on char lists: models Python's `in` on strings. -/
def listContainsSub (pat : List Char) (hay : List Char) : Bool :=
  pat.isPrefixOf hay ||
    match hay with
    | [] => false
    | _ :: rest => listContainsSub pat rest

/-- Python `needle in haystack` for strings. -/
def strContainsB (hay pat : String) : Bool :=
  listContainsSub pat.data hay.data

/-- Strict lexicographic order on char lists by code point: the order Python
uses to compare and sort strings. -/
def charListLt : List Char → List Char → Bool
  | [], [] => false
  | [], _ :: _ => true
  | _ :: _, [] => false
  | a :: as, b :: bs => if a < b then true else if b < a then false else charListLt as bs

/-- Strict order on strings, as a proposition. -/
def strLtP (a b : String) : Prop := charListLt a.data b.data = true

/-- Insert a string into a sorted duplicate-free list, keeping it sorted and
duplicate-free. -/
def insertDistinct (x : String) : List String → List String
  | [] => [x]
  | y :: ys =>
    if x = y then y :: ys
    else if charListLt x.data y.data then x :: y :: ys
    else y :: insertDistinct x ys

/-- Python `sorted(list(set(l)))`: the sorted list of the distinct elements. -/
def pySortedSet (l : List String) : List String :=
  l.foldr insertDistinct []

/-! ## Data model -/

/-- A LangChain `Document` as the program uses it: page text plus a string
metadata dictionary (PyPDFLoader puts the file path under key `source`). -/
structure Document where
  page_content : String
  metadata : List (String × String)
  deriving DecidableEq

/-- The set of distinct source-file basenames of the retrieved chunks, in
sorted order: the `sources` set built in `ask_question`, then
`sorted(list(sources))`. -/
def computeSources (docs : List Document) : List String :=
  pySortedSet (docs.map (fun d => pyBasename (pyDictGet d.metadata "source" "desconhecida")))

/-! ## String constants of the program -/

/-- The exact "not found" sentinel the prompt instructs the LLM to emit. -/
def sentinelStr : String := "Não encontrei essa informação nas normas disponíveis."

/-- The fixed user-facing message produced when `chain.invoke` raises. -/
def errorAnswer : String := "Ocorreu um erro ao processar sua pergunta. Por favor, tente novamente."

/-- Message of the `ValueError` raised when a new vector store would have to
be built from an empty chunk list. -/
def emptyVSError : String := "Não é possível criar um vector store sem documentos."

/-- `DOCS_PATH` configuration constant. -/
def DOCS_PATH : String := "docs"

/-! ## Citation post-processing (`ask_question`) -/

/-- The citation marker `"(Fonte: "` as a char list (see `citMark_data`). -/
def citMark : List Char := ['(', 'F', 'o', 'n', 't', 'e', ':', ' ']

/-- After the `[^\)]+` body of the citation regex, the remainder must be a
closing parenthesis followed only by whitespace. -/
def citAfterOk : List Char → Bool
  | ')' :: tail => tail.all isPySpace
  | _ => false

/-- Whether a char list matches the regex `\s*\(Fonte: [^\)]+\)\s*` in full
(greedy `\s*`, then the literal marker, a nonempty `[^\)]+` body, `\)`, then
whitespace to the end). -/
def matchesCit (l : List Char) : Bool :=
  citMark.isPrefixOf (l.dropWhile isPySpace) &&
    ((!(((l.dropWhile isPySpace).drop citMark.length).takeWhile (fun c => c != ')')).isEmpty) &&
      citAfterOk (((l.dropWhile isPySpace).drop citMark.length).dropWhile (fun c => c != ')')))

/-- Whether the char list contains an occurrence of the citation marker
`"(Fonte: "` that is never followed by a closing parenthesis. -/
def hasUnclosedFonte : List Char → Bool
  | [] => false
  | c :: rest =>
    (citMark.isPrefixOf (c :: rest) && !((c :: rest).contains ')')) || hasUnclosedFonte rest

/-- `re.sub(r"\s*\(Fonte: [^\)]+\)\s*$", "", answer)`: remove the leftmost
(hence longest) suffix matching the anchored citation pattern, if any. -/
def dropCitationSuffix : List Char → List Char
  | [] => []
  | c :: rest => if matchesCit (c :: rest) then [] else c :: dropCitationSuffix rest

/-- The citation-normalisation block of `ask_question` (lines 274-284 of the
source): if the canonical citation does not occur in the answer, append it on
a new line; otherwise strip a trailing citation via the regex and re-append. -/
def normalizeCitation (answer source_citation : String) : String :=
  let cit := "(Fonte: " ++ source_citation ++ ")"
  if strContainsB answer cit = false then
    answer ++ "\n" ++ cit
  else
    pyStrip (String.mk (dropCitationSuffix answer.data)) ++ "\n" ++ cit

/-- The canonical citation body for a retrieved chunk set:
`", ".join(sorted(list(sources)))`. -/
def citationOf (docs : List Document) : String :=
  String.intercalate ", " (computeSources docs)

/-- `ask_question(chain, query)`. The whole body sits in a `try`; the outcome
of `chain.invoke` is the input: `Except.error e` models the invoke raising,
`Except.ok (result, source_documents)` a normal return. -/
def ask_question (invokeResult : Except String (String × List Document)) : String :=
  match invokeResult with
  | Except.error _ => errorAnswer
  | Except.ok (rawResult, source_docs) =>
    let answer := pyStrip rawResult
    if answer = sentinelStr then answer
    else if source_docs.isEmpty then answer
    else
      let sources := computeSources source_docs
      if sources.isEmpty then
        answer ++ "\n(Fonte: Origem não identificada nos metadados)"
      else
        normalizeCitation answer (String.intercalate ", " sources)

/-! ## Document loading (`load_documents`) and step 1 of `main` -/

/-- Filesystem/loader state seen by `load_documents`: the directory is
missing, empty, or has files in which case `loader.load()` either returns
documents or raises (a per-file parse failure aborts the whole load). -/
inductive DirState where
  | missing
  | emptyDir
  | hasFiles (loadResult : Except String (List Document))

/-- `load_documents(directory_path)`. An `Except.error` result would model an
exception escaping the function; every branch of the source returns a list,
so every branch here is `Except.ok`. -/
def load_documents (d : DirState) : Except String (List Document) :=
  match d with
  | DirState.missing => Except.ok []
  | DirState.emptyDir => Except.ok []
  | DirState.hasFiles (Except.ok docs) => Except.ok docs
  | DirState.hasFiles (Except.error _) => Except.ok []

/-- Outcome of one startup step of `main`: proceed with a value, or print a
diagnostic and return (aborting startup). -/
inductive StartupStep (α : Type) where
  | proceed (value : α)
  | abort (printed : String)

/-- Step 1 of `main`: load documents and abort with the printed diagnostic
when the list is empty. -/
def main_step1 (d : DirState) : StartupStep (List Document) :=
  match load_documents d with
  | Except.error e => StartupStep.abort e
  | Except.ok docs =>
    if docs.isEmpty then
      StartupStep.abort
        ("Erro: Verifique se a pasta \x27" ++ DOCS_PATH ++ "\x27 existe e contém arquivos PDF válidos.")
    else StartupStep.proceed docs

/-! ## Vector store build/load (`create_or_load_vectorstore`) and step 4 of `main` -/

/-- Opaque stand-in for a FAISS vector store object. -/
structure FAISS where
  tag : Nat
  deriving DecidableEq

/-- External outcomes seen by `create_or_load_vectorstore`:
`persisted = none` models no file at `store_path`; `some (Except.ok vs)` a
persisted index that loads; `some (Except.error e)` a load that raises.
`buildResult` is the outcome of `FAISS.from_documents` + `save_local`. -/
structure VSEnv where
  persisted : Option (Except String FAISS)
  buildResult : Except String FAISS

/-- Python exceptions distinguished by `main`'s handlers. -/
inductive PyError where
  | valueError (msg : String)
  | otherError (msg : String)

/-- Result of `create_or_load_vectorstore` plus its side effects: whether the
persisted artifact was deleted (`shutil.rmtree`) and whether the load-failure
message (`"Erro ao carregar vector store existente: ... Criando um novo."`)
was logged. -/
structure VSOutcome where
  result : Except PyError FAISS
  deletedArtifact : Bool
  loggedLoadFailure : Bool

/-- The build-a-new-store tail of `create_or_load_vectorstore` (lines
135-149): raise `ValueError` on an empty chunk list, else build and save.
`afterFailedLoad` records whether we fell through from a failed load (in
which case the corrupt artifact was already deleted and the failure logged). -/
def buildNew (split_docs : List Document) (env : VSEnv) (afterFailedLoad : Bool) : VSOutcome :=
  if split_docs.isEmpty then
    ⟨Except.error (PyError.valueError emptyVSError), afterFailedLoad, afterFailedLoad⟩
  else
    match env.buildResult with
    | Except.ok vs => ⟨Except.ok vs, afterFailedLoad, afterFailedLoad⟩
    | Except.error b => ⟨Except.error (PyError.otherError b), afterFailedLoad, afterFailedLoad⟩

/-- `create_or_load_vectorstore(split_docs, embeddings, store_path)`. -/
def create_or_load_vectorstore (split_docs : List Document) (env : VSEnv) : VSOutcome :=
  match env.persisted with
  | some (Except.ok vs) => ⟨Except.ok vs, false, false⟩
  | some (Except.error _) => buildNew split_docs env true
  | none => buildNew split_docs env false

/-- Whether a usable persisted index exists (load succeeds). -/
def loadableIndex (env : VSEnv) : Bool :=
  match env.persisted with
  | some (Except.ok _) => true
  | _ => false

/-- Step 4 of `main`: note the caller passes the chunk list only when
`os.path.exists(VECTORSTORE_PATH)` is false (`split_docs if not
os.path.exists(VECTORSTORE_PATH) else []`), and maps a `ValueError` to the
printed diagnostic `"Erro: " + str(ve)`. -/
def main_step4 (split_docs : List Document) (env : VSEnv) : StartupStep FAISS :=
  let arg := if env.persisted.isSome then [] else split_docs
  match (create_or_load_vectorstore arg env).result with
  | Except.ok vs => StartupStep.proceed vs
  | Except.error (PyError.valueError m) => StartupStep.abort ("Erro: " ++ m)
  | Except.error (PyError.otherError _) =>
    StartupStep.abort "Erro: Falha ao criar ou carregar o banco de dados vetorial."

/-! ## The interactive loop of `main` -/

/-- One observable event of the interactive loop. -/
inductive LoopEvent where
  | farewell (msg : String)
  | reprompt (msg : String)
  | answered (response : String)
  deriving DecidableEq

/-- The `while True` loop of `main`, run over a finite list of input lines;
`oracle` gives the `chain.invoke` outcome for each forwarded query. The loop
breaks on the exit sentinel, re-prompts on blank input, and otherwise prints
the `ask_question` response and continues. -/
def runLoop (oracle : String → Except String (String × List Document)) :
    List String → List LoopEvent
  | [] => []
  | q :: rest =>
    if pyStrip (pyLower q) = "sair" then
      [LoopEvent.farewell "Encerrando o assistente. Até logo!"]
    else if pyStrip q = "" then
      LoopEvent.reprompt "Por favor, digite uma pergunta." :: runLoop oracle rest
    else
      LoopEvent.answered (ask_question (oracle q)) :: runLoop oracle rest

/-! ## Basic string and list facts -/

/-- Two strings with the same character data are equal. -/
theorem stringDataInj {a b : String} (h : a.data = b.data) : a = b := by
  cases a
  cases b
  exact congrArg String.mk h

/-- Rebuilding a string from its data is the identity. -/
theorem stringMkData (s : String) : String.mk s.data = s := by
  cases s
  rfl

/-- The explicit marker list is the data of the literal `"(Fonte: "`. -/
theorem citMark_data : citMark = "(Fonte: ".data := rfl

/-- Unfolding of `charListLt` on two cons cells. -/
theorem charListLt_cons (x y : Char) (xs ys : List Char) :
    charListLt (x :: xs) (y :: ys)
      = (if x < y then true else if y < x then false else charListLt xs ys) := rfl

/-- `charListLt` is transitive. -/
theorem charListLt_trans {a b c : List Char}
    (h1 : charListLt a b = true) (h2 : charListLt b c = true) : charListLt a c = true := by
  induction a generalizing b c with
  | nil =>
    cases c with
    | nil =>
      cases b with
      | nil => exact h1
      | cons y ys => simp [charListLt] at h2
    | cons z zs => rfl
  | cons x xs ih =>
    cases b with
    | nil => simp [charListLt] at h1
    | cons y ys =>
      cases c with
      | nil => simp [charListLt] at h2
      | cons z zs =>
        rw [charListLt_cons] at h1 h2 ⊢
        rcases lt_trichotomy x y with hxy | hxy | hxy
        · rcases lt_trichotomy y z with hyz | hyz | hyz
          · simp [lt_trans hxy hyz]
          · subst hyz; simp [hxy]
          · rw [if_neg (lt_asymm hyz), if_pos hyz] at h2; simp at h2
        · subst hxy
          rcases lt_trichotomy x z with hxz | hxz | hxz
          · simp [hxz]
          · subst hxz
            rw [if_neg (lt_irrefl x), if_neg (lt_irrefl x)] at h1 h2 ⊢
            exact ih h1 h2
          · rw [if_neg (lt_asymm hxz), if_pos hxz] at h2; simp at h2
        · rw [if_neg (lt_asymm hxy), if_pos hxy] at h1; simp at h1

/-- `charListLt` is total on distinct lists. -/
theorem charListLt_total {a b : List Char} (h : a ≠ b) :
    charListLt a b = true ∨ charListLt b a = true := by
  induction a generalizing b with
  | nil =>
    cases b with
    | nil => exact absurd rfl h
    | cons y ys => exact Or.inl rfl
  | cons x xs ih =>
    cases b with
    | nil => exact Or.inr rfl
    | cons y ys =>
      rcases lt_trichotomy x y with hxy | hxy | hxy
      · exact Or.inl (by rw [charListLt_cons, if_pos hxy])
      · subst hxy
        have hne : xs ≠ ys := fun hh => h (by rw [hh])
        rcases ih hne with h1 | h1
        · refine Or.inl ?_
          rw [charListLt_cons, if_neg (lt_irrefl x), if_neg (lt_irrefl x)]
          exact h1
        · refine Or.inr ?_
          rw [charListLt_cons, if_neg (lt_irrefl x), if_neg (lt_irrefl x)]
          exact h1
      · exact Or.inr (by rw [charListLt_cons, if_pos hxy])

/-! ## Facts about the sorted source-name set -/

/-- Membership in `insertDistinct`. -/
theorem mem_insertDistinct {s x : String} {l : List String} :
    s ∈ insertDistinct x l ↔ s = x ∨ s ∈ l := by
  induction l with
  | nil => simp [insertDistinct]
  | cons y ys ih =>
    unfold insertDistinct
    split
    · rename_i hxy
      subst hxy
      simp only [List.mem_cons]
      tauto
    · split
      · simp only [List.mem_cons]
      · simp only [List.mem_cons, ih]
        tauto

/-- `insertDistinct` never produces the empty list. -/
theorem insertDistinct_ne_nil (x : String) (l : List String) : insertDistinct x l ≠ [] := by
  cases l with
  | nil => simp [insertDistinct]
  | cons y ys =>
    unfold insertDistinct
    split
    · simp
    · split <;> simp

/-- `insertDistinct` preserves strict sortedness. -/
theorem pairwise_insertDistinct {x : String} {l : List String}
    (h : l.Pairwise strLtP) : (insertDistinct x l).Pairwise strLtP := by
  induction l with
  | nil => simp [insertDistinct, List.pairwise_cons]
  | cons y ys ih =>
    rw [List.pairwise_cons] at h
    obtain ⟨hy, hys⟩ := h
    unfold insertDistinct
    split
    · exact List.pairwise_cons.mpr ⟨hy, hys⟩
    · rename_i hxy
      split
      · rename_i hlt
        refine List.pairwise_cons.mpr ⟨?_, List.pairwise_cons.mpr ⟨hy, hys⟩⟩
        intro z hz
        rcases List.mem_cons.mp hz with rfl | hz2
        · exact hlt
        · exact charListLt_trans hlt (hy z hz2)
      · rename_i hnlt
        have hyx : charListLt y.data x.data = true := by
          have hne : x.data ≠ y.data := fun hd => hxy (stringDataInj hd)
          rcases charListLt_total hne with h1 | h1
          · exact absurd h1 hnlt
          · exact h1
        refine List.pairwise_cons.mpr ⟨?_, ih hys⟩
        intro z hz
        rcases mem_insertDistinct.mp hz with rfl | hz2
        · exact hyx
        · exact hy z hz2

/-- Membership in `pySortedSet` is membership in the original list. -/
theorem mem_pySortedSet {s : String} {l : List String} :
    s ∈ pySortedSet l ↔ s ∈ l := by
  induction l with
  | nil => simp [pySortedSet]
  | cons x xs ih =>
    show s ∈ insertDistinct x (pySortedSet xs) ↔ _
    rw [mem_insertDistinct, ih]
    simp [List.mem_cons]

/-- `pySortedSet` is strictly sorted (hence duplicate-free). -/
theorem pairwise_pySortedSet (l : List String) : (pySortedSet l).Pairwise strLtP := by
  induction l with
  | nil => simp [pySortedSet]
  | cons x xs ih => exact pairwise_insertDistinct ih

/-- `pySortedSet` of a non-empty list is non-empty. -/
theorem pySortedSet_ne_nil {l : List String} (h : l ≠ []) : pySortedSet l ≠ [] := by
  cases l with
  | nil => exact absurd rfl h
  | cons x xs => exact insertDistinct_ne_nil x (pySortedSet xs)

/-- Every document contributes a source name, so a non-empty retrieved set
yields a non-empty source-name set. -/
theorem computeSources_ne_nil {docs : List Document} (h : docs ≠ []) :
    computeSources docs ≠ [] := by
  unfold computeSources
  apply pySortedSet_ne_nil
  simpa using h

/-- On a non-empty retrieved chunk set, `ask_question` returns either the
sentinel or the citation-normalised answer: the placeholder branch for an
empty source set is never taken. -/
theorem ask_question_nonempty_docs (raw : String) (docs : List Document) (h : docs ≠ []) :
    ask_question (Except.ok (raw, docs)) =
      (if pyStrip raw = sentinelStr then pyStrip raw
       else normalizeCitation (pyStrip raw) (citationOf docs)) := by
  have hd : docs.isEmpty = false := by
    cases docs with
    | nil => exact absurd rfl h
    | cons a as => rfl
  have hc : (computeSources docs).isEmpty = false := by
    cases hcs : computeSources docs with
    | nil => exact absurd hcs (computeSources_ne_nil h)
    | cons a as => rfl
  by_cases hs : pyStrip raw = sentinelStr
  · simp [ask_question, hs]
  · simp [ask_question, citationOf, hs, hd, hc]

/-! ## takeWhile/dropWhile facts -/

/-- If the predicate holds on all of the first part, `takeWhile` passes it. -/
theorem takeWhile_append_all {p : Char → Bool} {l1 : List Char} (l2 : List Char)
    (h : ∀ a ∈ l1, p a = true) :
    (l1 ++ l2).takeWhile p = l1 ++ l2.takeWhile p := by
  induction l1 with
  | nil => simp
  | cons x xs ih =>
    have hx : p x = true := h x (by simp)
    simp [List.takeWhile_cons, hx, ih (fun a ha => h a (by simp [ha]))]

/-- If the predicate holds on all of the first part, `dropWhile` skips it. -/
theorem dropWhile_append_all {p : Char → Bool} {l1 : List Char} (l2 : List Char)
    (h : ∀ a ∈ l1, p a = true) :
    (l1 ++ l2).dropWhile p = l2.dropWhile p := by
  induction l1 with
  | nil => simp
  | cons x xs ih =>
    have hx : p x = true := h x (by simp)
    simp [List.dropWhile_cons, hx, ih (fun a ha => h a (by simp [ha]))]

/-- If the predicate fails somewhere in the first part, `takeWhile` and
`dropWhile` are decided entirely within it. -/
theorem takeWhile_append_stop {p : Char → Bool} {l1 : List Char} (l2 : List Char)
    (h : ∃ a ∈ l1, p a = false) :
    (l1 ++ l2).takeWhile p = l1.takeWhile p
    ∧ (l1 ++ l2).dropWhile p = l1.dropWhile p ++ l2 := by
  induction l1 with
  | nil => simp at h
  | cons x xs ih =>
    by_cases hx : p x = true
    · obtain ⟨a, ha, hpa⟩ := h
      rcases List.mem_cons.mp ha with rfl | ha2
      · rw [hx] at hpa; cases hpa
      · have hih := ih ⟨a, ha2, hpa⟩
        simp [List.takeWhile_cons, List.dropWhile_cons, hx, hih.1, hih.2]
    · have hx2 : p x = false := by
        cases hpx : p x with
        | false => rfl
        | true => exact absurd hpx hx
      simp [List.takeWhile_cons, List.dropWhile_cons, hx2]

/-- The head surviving a `dropWhile` falsifies the predicate. -/
theorem dropWhile_head_false {p : Char → Bool} {l r : List Char} {c : Char}
    (h : l.dropWhile p = c :: r) : p c = false := by
  induction l with
  | nil => simp at h
  | cons x xs ih =>
    rw [List.dropWhile_cons] at h
    split at h
    · exact ih h
    · rename_i hx
      injection h with h1 h2
      subst h1
      simpa using hx

/-- A string fixed by `pyStrip` has no leading or trailing whitespace:
`dropWhile` from either end is the identity. -/
theorem pyStrip_eq_self_facts {p : String} (h : pyStrip p = p) :
    p.data.dropWhile isPySpace = p.data
    ∧ p.data.reverse.dropWhile isPySpace = p.data.reverse := by
  have hd : ((p.data.dropWhile isPySpace).reverse.dropWhile isPySpace).reverse = p.data :=
    congrArg String.data h
  have hlenA : (p.data.dropWhile isPySpace).length ≤ p.data.length :=
    ((List.dropWhile_suffix isPySpace).sublist).length_le
  have hlenB : ((p.data.dropWhile isPySpace).reverse.dropWhile isPySpace).length
      ≤ (p.data.dropWhile isPySpace).length := by
    have := ((List.dropWhile_suffix (l := (p.data.dropWhile isPySpace).reverse)
      isPySpace).sublist).length_le
    simpa using this
  have hlenEq : ((p.data.dropWhile isPySpace).reverse.dropWhile isPySpace).length
      = p.data.length := by
    have := congrArg List.length hd
    simpa using this
  have hA : p.data.dropWhile isPySpace = p.data :=
    List.Sublist.eq_of_length ((List.dropWhile_suffix isPySpace).sublist) (by omega)
  refine ⟨hA, ?_⟩
  have hB : (p.data.dropWhile isPySpace).reverse.dropWhile isPySpace
      = (p.data.dropWhile isPySpace).reverse := by
    apply List.Sublist.eq_of_length ((List.dropWhile_suffix isPySpace).sublist)
    rw [hA] at hlenEq ⊢
    rw [hlenEq, List.length_reverse]
  rw [hA] at hB
  exact hB

/-- In a string fixed by `pyStrip`, no non-empty suffix is all whitespace. -/
theorem pyStrip_suffix_not_all_space {p : String} (h : pyStrip p = p) {s : List Char}
    (hs : s <:+ p.data) (hne : s ≠ []) : s.dropWhile isPySpace ≠ [] := by
  intro hnil
  rw [List.dropWhile_eq_nil_iff] at hnil
  obtain ⟨u, hu⟩ := hs
  have h2 := (pyStrip_eq_self_facts h).2
  cases hsrev : s.reverse with
  | nil => exact hne (by simpa using congrArg List.reverse hsrev)
  | cons c cr =>
    have hrev : p.data.reverse = c :: (cr ++ u.reverse) := by
      rw [← hu]
      simp [List.reverse_append, hsrev]
    have hcfalse : isPySpace c = false := by
      apply dropWhile_head_false (l := c :: (cr ++ u.reverse))
      rw [← hrev, h2, hrev]
    have hcmem : c ∈ s := by
      have : c ∈ s.reverse := by rw [hsrev]; simp
      simpa using this
    rw [hnil c hcmem] at hcfalse
    cases hcfalse

/-- One-step unfolding of `listContainsSub`. -/
theorem listContainsSub_unfold (pat hay : List Char) :
    listContainsSub pat hay
      = (pat.isPrefixOf hay ||
          match hay with
          | [] => false
          | _ :: rest => listContainsSub pat rest) := by
  cases hay <;> rfl

/-- A sublist occurrence makes the substring test succeed. -/
theorem listContainsSub_of_infix {pat v : List Char} (u : List Char) :
    listContainsSub pat (u ++ (pat ++ v)) = true := by
  induction u with
  | nil =>
    have hpre : pat.isPrefixOf ([] ++ (pat ++ v)) = true := by
      rw [List.isPrefixOf_iff_prefix]
      exact List.prefix_append _ _
    rw [listContainsSub_unfold, hpre, Bool.true_or]
  | cons d u' ih =>
    show (pat.isPrefixOf (d :: (u' ++ (pat ++ v))) || listContainsSub pat (u' ++ (pat ++ v)))
        = true
    rw [ih]
    simp

/-! ## Lower/strip commutation for the exit-sentinel test -/

/-- Lowercasing never changes whether a character is whitespace. -/
theorem isPySpace_asciiLower (c : Char) : isPySpace (asciiLower c) = isPySpace c := by
  cases hf : upperLowerTable.find? (fun p => p.1 == c) with
  | none => simp [asciiLower, hf]
  | some p =>
    have hmem : p ∈ upperLowerTable := List.mem_of_find?_eq_some hf
    have hcond := List.find?_some hf
    have hc : p.1 = c := by simpa using hcond
    have hAL : asciiLower c = p.2 := by simp [asciiLower, hf]
    have htab : ∀ q ∈ upperLowerTable, isPySpace q.2 = isPySpace q.1 := by decide
    rw [hAL, ← hc]
    exact htab p hmem

/-- `query.lower().strip()` equals `query.strip().lower()`. -/
theorem pyStrip_pyLower_comm (q : String) : pyStrip (pyLower q) = pyLower (pyStrip q) := by
  have hfun : (isPySpace ∘ asciiLower) = isPySpace := funext isPySpace_asciiLower
  apply stringDataInj
  show (((q.data.map asciiLower).dropWhile isPySpace).reverse.dropWhile isPySpace).reverse
      = (((q.data.dropWhile isPySpace).reverse.dropWhile isPySpace).reverse).map asciiLower
  rw [List.dropWhile_map, hfun, ← List.map_reverse, List.dropWhile_map, hfun, ← List.map_reverse]

/-! ## Facts about the citation regex model -/

/-- If `hasUnclosedFonte` fails on a list containing a marker occurrence,
that occurrence is followed by a closing parenthesis. -/
theorem hasUnclosedFonte_closed {v : List Char} (u : List Char)
    (h : hasUnclosedFonte (u ++ (citMark ++ v)) = false) : ')' ∈ v := by
  induction u with
  | nil =>
    have hstep : hasUnclosedFonte ([] ++ (citMark ++ v))
        = ((citMark.isPrefixOf (citMark ++ v) && !((citMark ++ v).contains ')'))
            || hasUnclosedFonte (['F', 'o', 'n', 't', 'e', ':', ' '] ++ v)) := rfl
    rw [hstep, Bool.or_eq_false_iff] at h
    have hpre : citMark.isPrefixOf (citMark ++ v) = true := by
      rw [List.isPrefixOf_iff_prefix]
      exact List.prefix_append _ _
    have h1 := h.1
    rw [hpre, Bool.true_and] at h1
    have hcont : (citMark ++ v).contains ')' = true := by
      cases hb : (citMark ++ v).contains ')' with
      | true => rfl
      | false => rw [hb] at h1; cases h1
    have hmem : ')' ∈ citMark ++ v := by simpa using hcont
    rcases List.mem_append.mp hmem with hmem1 | hmem2
    · exact absurd hmem1 (by decide)
    · exact hmem2
  | cons d u' ih =>
    have hstep : hasUnclosedFonte ((d :: u') ++ (citMark ++ v))
        = ((citMark.isPrefixOf ((d :: u') ++ (citMark ++ v))
              && !(((d :: u') ++ (citMark ++ v)).contains ')'))
            || hasUnclosedFonte (u' ++ (citMark ++ v))) := rfl
    rw [hstep, Bool.or_eq_false_iff] at h
    exact ih h.2

/-- The appended canonical citation matches the trailing-citation regex,
provided the citation body is non-empty and free of closing parentheses. -/
theorem matchesCit_suffix_true {c : List Char} (hc : c ≠ []) (hcp : ')' ∉ c) :
    matchesCit ('\n' :: (citMark ++ (c ++ [')']))) = true := by
  have hall : ∀ a ∈ c, (a != ')') = true := by
    intro a ha
    have hne : a ≠ ')' := fun hh => hcp (hh ▸ ha)
    simpa using hne
  have hdrop : ('\n' :: (citMark ++ (c ++ [')']))).dropWhile isPySpace
      = citMark ++ (c ++ [')']) := rfl
  have hpre : citMark.isPrefixOf (citMark ++ (c ++ [')'])) = true := by
    rw [List.isPrefixOf_iff_prefix]
    exact List.prefix_append _ _
  have hrest : (citMark ++ (c ++ [')'])).drop citMark.length = c ++ [')'] :=
    List.drop_left _ _
  have htake : (c ++ [')']).takeWhile (fun a => a != ')') = c := by
    rw [takeWhile_append_all _ hall]
    simp
  have hdrop2 : (c ++ [')']).dropWhile (fun a => a != ')') = [')'] := by
    rw [dropWhile_append_all _ hall]
    rfl
  unfold matchesCit
  rw [hdrop, hpre, hrest, htake, hdrop2]
  cases c with
  | nil => exact absurd rfl hc
  | cons a as => rfl

/-- No non-empty suffix of a stripped, marker-closed answer matches the
trailing-citation regex once the canonical citation is appended after it. -/
theorem matchesCit_false_of_closed {p : String} (hps : pyStrip p = p)
    (hu : hasUnclosedFonte p.data = false)
    {c : List Char} {s : List Char} (hs : s <:+ p.data) (hne : s ≠ []) :
    matchesCit (s ++ ('\n' :: (citMark ++ (c ++ [')'])))) = false := by
  set t := '\n' :: (citMark ++ (c ++ [')'])) with ht
  have hs1 : s.dropWhile isPySpace ≠ [] := pyStrip_suffix_not_all_space hps hs hne
  have hstop : ∃ a ∈ s, isPySpace a = false := by
    by_contra hall
    push_neg at hall
    apply hs1
    rw [List.dropWhile_eq_nil_iff]
    intro x hx
    cases hb : isPySpace x with
    | true => rfl
    | false => exact absurd hb (hall x hx)
  have hdw : (s ++ t).dropWhile isPySpace = s.dropWhile isPySpace ++ t :=
    (takeWhile_append_stop t hstop).2
  unfold matchesCit
  rw [hdw]
  by_cases hpre : citMark.isPrefixOf (s.dropWhile isPySpace ++ t) = true
  · have hpre2 : citMark <+: (s.dropWhile isPySpace ++ t) :=
      List.isPrefixOf_iff_prefix.mp hpre
    by_cases hlen : (s.dropWhile isPySpace).length < citMark.length
    · exfalso
      have hsp : s.dropWhile isPySpace <+: s.dropWhile isPySpace ++ t :=
        List.prefix_append _ _
      have h1 : s.dropWhile isPySpace <+: citMark :=
        List.prefix_of_prefix_length_le hsp hpre2 (le_of_lt hlen)
      obtain ⟨d, hd⟩ := h1
      have hdne : d ≠ [] := by
        intro hdn
        rw [hdn, List.append_nil] at hd
        rw [hd] at hlen
        exact lt_irrefl _ hlen
      have h2 : s.dropWhile isPySpace ++ d <+: s.dropWhile isPySpace ++ t := by
        rw [hd]
        exact hpre2
      have h3 : d <+: t := (List.prefix_append_right_inj (s.dropWhile isPySpace)).mp h2
      cases d with
      | nil => exact hdne rfl
      | cons e d' =>
        obtain ⟨w, hw⟩ := h3
        rw [ht] at hw
        have he : e = '\n' := by
          have := congrArg List.head? hw
          simpa using this
        have hemem : e ∈ citMark := by
          rw [← hd]
          exact List.mem_append_right _ (List.mem_cons_self _ _)
        rw [he] at hemem
        exact absurd hemem (by decide)
    · have hlen2 : citMark.length ≤ (s.dropWhile isPySpace).length := le_of_not_lt hlen
      have hsp : s.dropWhile isPySpace <+: s.dropWhile isPySpace ++ t :=
        List.prefix_append _ _
      have h1 : citMark <+: s.dropWhile isPySpace :=
        List.prefix_of_prefix_length_le hpre2 hsp hlen2
      obtain ⟨r, hr⟩ := h1
      obtain ⟨u0, hu0⟩ := hs
      have hsdecomp : s = s.takeWhile isPySpace ++ s.dropWhile isPySpace :=
        (List.takeWhile_append_dropWhile _ _).symm
      have hpdata : p.data = (u0 ++ s.takeWhile isPySpace) ++ (citMark ++ r) :=
        calc p.data = u0 ++ s := hu0.symm
          _ = u0 ++ (s.takeWhile isPySpace ++ s.dropWhile isPySpace) :=
              congrArg (u0 ++ ·) hsdecomp
          _ = (u0 ++ s.takeWhile isPySpace) ++ s.dropWhile isPySpace := by
              rw [List.append_assoc]
          _ = (u0 ++ s.takeWhile isPySpace) ++ (citMark ++ r) := by rw [← hr]
      have hrclosed : ')' ∈ r := by
        apply hasUnclosedFonte_closed (u0 ++ s.takeWhile isPySpace)
        rw [← hpdata]
        exact hu
      have hdrop8 : (s.dropWhile isPySpace ++ t).drop citMark.length = r ++ t := by
        rw [← hr, List.append_assoc]
        exact List.drop_left _ _
      have hwit : ∃ a ∈ r, (a != ')') = false := ⟨')', hrclosed, by simp⟩
      have hdne2 : r.dropWhile (fun a => a != ')') ≠ [] := by
        intro hnil
        rw [List.dropWhile_eq_nil_iff] at hnil
        have hx := hnil ')' hrclosed
        simp at hx
      cases hd2 : r.dropWhile (fun a => a != ')') with
      | nil => exact absurd hd2 hdne2
      | cons x r2 =>
        have hx : (x != ')') = false := dropWhile_head_false (p := fun a => a != ')') hd2
        have hx2 : x = ')' := by simpa using hx
        subst hx2
        have hafter : ((s.dropWhile isPySpace ++ t).drop citMark.length).dropWhile
            (fun a => a != ')') = ')' :: (r2 ++ t) := by
          rw [hdrop8, (takeWhile_append_stop t hwit).2, hd2]
          rfl
        have hallf : (r2 ++ t).all isPySpace = false := by
          cases hb : (r2 ++ t).all isPySpace with
          | false => rfl
          | true =>
            exfalso
            have hpmem : ('(' : Char) ∈ r2 ++ t := by
              apply List.mem_append_right
              rw [ht]
              exact List.mem_cons_of_mem _ (List.mem_append_left _ (by decide))
            have := List.all_eq_true.mp hb '(' hpmem
            simp [isPySpace] at this
        have hcitf : citAfterOk (')' :: (r2 ++ t)) = false := hallf
        rw [hpre, hafter, hcitf]
        simp
  · have hpf : citMark.isPrefixOf (s.dropWhile isPySpace ++ t) = false :=
      Bool.eq_false_iff.mpr hpre
    rw [hpf]
    simp

/-- `dropCitationSuffix` removes exactly the trailing appended citation when
no earlier suffix matches. -/
theorem dropCitationSuffix_through {l t : List Char}
    (hmt : matchesCit t = true) (hne : t ≠ [])
    (hl : ∀ s, s <:+ l → s ≠ [] → matchesCit (s ++ t) = false) :
    dropCitationSuffix (l ++ t) = l := by
  induction l with
  | nil =>
    cases t with
    | nil => exact absurd rfl hne
    | cons a r =>
      show (if matchesCit (a :: r) = true then [] else a :: dropCitationSuffix r) = []
      rw [if_pos hmt]
  | cons x xs ih =>
    have hfalse : matchesCit (x :: (xs ++ t)) = false :=
      hl (x :: xs) (List.suffix_refl _) (by simp)
    show (if matchesCit (x :: (xs ++ t)) = true then [] else x :: dropCitationSuffix (xs ++ t))
        = x :: xs
    rw [if_neg (by simp [hfalse])]
    congr 1
    exact ih (fun s hsx hsne => hl s (hsx.trans (List.suffix_cons x xs)) hsne)

/-! ## Claim theorems -/

/-- Claim C1 (code bug): with a corrupt persisted index and a non-empty chunk
set, `create_or_load_vectorstore` itself would log the failure, delete the
artifact and rebuild — but `main` passes `[]` instead of the chunk set
whenever the index path exists, so after deleting the corrupt artifact the
rebuild raises `ValueError` and startup aborts with a printed diagnostic,
contrary to the claimed user-invisible recovery. -/
theorem C1_code_bug_eval :
    (create_or_load_vectorstore [⟨"chunk", [("source", "docs/norma.pdf")]⟩]
        ⟨some (Except.error "could not deserialize"), Except.ok ⟨7⟩⟩).result = Except.ok ⟨7⟩
    ∧ (create_or_load_vectorstore [⟨"chunk", [("source", "docs/norma.pdf")]⟩]
        ⟨some (Except.error "could not deserialize"), Except.ok ⟨7⟩⟩).deletedArtifact = true
    ∧ (create_or_load_vectorstore [⟨"chunk", [("source", "docs/norma.pdf")]⟩]
        ⟨some (Except.error "could not deserialize"), Except.ok ⟨7⟩⟩).loggedLoadFailure = true
    ∧ main_step4 [⟨"chunk", [("source", "docs/norma.pdf")]⟩]
        ⟨some (Except.error "could not deserialize"), Except.ok ⟨7⟩⟩
        = StartupStep.abort ("Erro: " ++ emptyVSError) :=
  ⟨rfl, rfl, rfl, rfl⟩

/-- Claim C2 counterexample: on a per-file parse failure the load does not
fail with a `LoadError`; `load_documents` catches the exception and returns
an ordinary (empty) success value. -/
theorem C2_counterexample :
    load_documents (DirState.hasFiles (Except.error "PdfReadError: EOF marker not found"))
      = Except.ok []
    ∧ (load_documents (DirState.hasFiles
        (Except.error "PdfReadError: EOF marker not found"))).isOk = true :=
  ⟨rfl, rfl⟩

/-- Claim C2 (amended): on a per-file parse failure `load_documents` logs the
error and returns an empty list instead of raising; the caller then sees an
empty document list and aborts startup with the printed diagnostic, so no
partial-success result is produced. -/
theorem C2_amended (e : String) :
    load_documents (DirState.hasFiles (Except.error e)) = Except.ok []
    ∧ main_step1 (DirState.hasFiles (Except.error e))
        = StartupStep.abort
            "Erro: Verifique se a pasta \x27docs\x27 existe e contém arquivos PDF válidos." :=
  ⟨rfl, rfl⟩

/-- Claim C5: when the raw LLM answer equals the sentinel exactly, the
orchestrator returns it unchanged with no citation appended, for any
retrieved chunk set. -/
theorem C5_sentinel_unchanged (docs : List Document) :
    ask_question (Except.ok (sentinelStr, docs)) = sentinelStr := rfl

/-- Claim C6 counterexample: with a non-sentinel answer and an empty
retrieved chunk set, the orchestrator returns the bare answer with no
citation at all — it does not append the unidentified-origin placeholder. -/
theorem C6_counterexample :
    ask_question (Except.ok ("A tolerância é 5 mm.", [])) = "A tolerância é 5 mm."
    ∧ strContainsB "A tolerância é 5 mm." "(Fonte:" = false :=
  ⟨rfl, rfl⟩

/-- Claim C6 (amended): the orchestrator always returns a string (it is a
total function), but when the retrieved chunk set is empty the non-sentinel
answer is returned as-is with no citation; the unidentified-origin
placeholder is reserved for the non-empty-chunk case with no extractable
source names. -/
theorem C6_amended (raw : String) (h : pyStrip raw ≠ sentinelStr) :
    ask_question (Except.ok (raw, [])) = pyStrip raw := by
  simp [ask_question, h]

/-- Witness for C6: a concrete non-sentinel answer with no source documents
comes back unchanged. -/
theorem C6_witness :
    pyStrip "A resposta é X." ≠ sentinelStr
    ∧ ask_question (Except.ok ("A resposta é X.", [])) = pyStrip "A resposta é X." :=
  ⟨by decide, C6_amended "A resposta é X." (by decide)⟩

/-- Claim C9: with no usable persisted index (absent or failing to load) and
an empty chunk list, `create_or_load_vectorstore` raises the
`ValueError`/ConfigurationError instead of building an empty index, and
`main` aborts startup printing the diagnostic. -/
theorem C9_empty_chunks (env : VSEnv) (h : loadableIndex env = false) :
    (create_or_load_vectorstore [] env).result
      = Except.error (PyError.valueError emptyVSError)
    ∧ main_step4 [] env = StartupStep.abort ("Erro: " ++ emptyVSError) := by
  obtain ⟨p, b⟩ := env
  match p with
  | none => exact ⟨rfl, rfl⟩
  | some (Except.error e) => exact ⟨rfl, rfl⟩
  | some (Except.ok vs) => simp [loadableIndex] at h

/-- Witness for C9: the concrete no-persisted-index environment. -/
theorem C9_witness :
    loadableIndex ⟨none, Except.ok ⟨0⟩⟩ = false
    ∧ (create_or_load_vectorstore [] ⟨none, Except.ok ⟨0⟩⟩).result
        = Except.error (PyError.valueError emptyVSError)
    ∧ main_step4 [] ⟨none, Except.ok ⟨0⟩⟩ = StartupStep.abort ("Erro: " ++ emptyVSError) :=
  ⟨rfl, (C9_empty_chunks ⟨none, Except.ok ⟨0⟩⟩ rfl).1,
    (C9_empty_chunks ⟨none, Except.ok ⟨0⟩⟩ rfl).2⟩

/-- Claim C10: a non-empty retrieved document list always yields a non-empty
source-name set (each document contributes the basename of its `source`
metadata, defaulting to `desconhecida`), so `ask_question` never takes the
unidentified-origin placeholder branch on such queries: it returns either the
sentinel or the citation-normalised answer. -/
theorem C10_no_placeholder (raw : String) (docs : List Document) (h : docs ≠ []) :
    computeSources docs ≠ []
    ∧ ask_question (Except.ok (raw, docs)) =
        (if pyStrip raw = sentinelStr then pyStrip raw
         else normalizeCitation (pyStrip raw) (citationOf docs)) :=
  ⟨computeSources_ne_nil h, ask_question_nonempty_docs raw docs h⟩

/-- Witness for C10: one concrete document with a `source` path. -/
theorem C10_witness :
    ([(⟨"t", [("source", "docs/a.pdf")]⟩ : Document)] ≠ [])
    ∧ computeSources [⟨"t", [("source", "docs/a.pdf")]⟩] ≠ []
    ∧ ask_question (Except.ok ("Resposta.", [⟨"t", [("source", "docs/a.pdf")]⟩]))
        = (if pyStrip "Resposta." = sentinelStr then pyStrip "Resposta."
           else normalizeCitation (pyStrip "Resposta.")
             (citationOf [⟨"t", [("source", "docs/a.pdf")]⟩])) :=
  ⟨List.cons_ne_nil _ _,
   (C10_no_placeholder "Resposta." [⟨"t", [("source", "docs/a.pdf")]⟩]
     (List.cons_ne_nil _ _)).1,
   (C10_no_placeholder "Resposta." [⟨"t", [("source", "docs/a.pdf")]⟩]
     (List.cons_ne_nil _ _)).2⟩

/-- Claim C3 counterexample: the code keys its branch on substring
containment of the canonical citation, not on how the answer ends. Here the
answer does not end with the canonical citation `(Fonte: a.pdf)` (second
conjunct), so the claim prescribes appending the canonical citation to the
unchanged answer (third conjunct names that prescribed output); but because
the canonical citation occurs earlier in the answer, the code first strips
the trailing `(Fonte: b.pdf)` citation (first conjunct). -/
theorem C3_counterexample :
    ask_question (Except.ok ("x (Fonte: a.pdf) y (Fonte: b.pdf)",
        [⟨"t", [("source", "docs/a.pdf")]⟩]))
      = "x (Fonte: a.pdf) y\n(Fonte: a.pdf)"
    ∧ ("(Fonte: a.pdf)".data.isSuffixOf
        "x (Fonte: a.pdf) y (Fonte: b.pdf)".data) = false
    ∧ "x (Fonte: a.pdf) y\n(Fonte: a.pdf)"
        ≠ "x (Fonte: a.pdf) y (Fonte: b.pdf)" ++ "\n" ++ "(Fonte: a.pdf)" :=
  ⟨rfl, rfl, by decide⟩

/-- Claim C3 (amended): for a non-sentinel answer and a non-empty retrieved
set, the collected source names are exactly the distinct basenames, in
strictly sorted order; the branch condition is substring containment of the
canonical citation (not "ends with a citation"): if the canonical citation
does not occur anywhere in the answer it is appended on a new line, otherwise
the trailing citation (if any) is stripped by the regex and the canonical one
re-appended; in either case the returned string ends with exactly one
canonical citation. -/
theorem C3_amended (raw : String) (docs : List Document)
    (h1 : pyStrip raw ≠ sentinelStr) (h2 : docs ≠ []) :
    (computeSources docs).Pairwise strLtP
    ∧ (∀ s, s ∈ computeSources docs ↔
        ∃ d, d ∈ docs ∧ s = pyBasename (pyDictGet d.metadata "source" "desconhecida"))
    ∧ ask_question (Except.ok (raw, docs)) =
        (if strContainsB (pyStrip raw) ("(Fonte: " ++ citationOf docs ++ ")") = false then
          pyStrip raw ++ "\n" ++ ("(Fonte: " ++ citationOf docs ++ ")")
         else
          pyStrip (String.mk (dropCitationSuffix (pyStrip raw).data)) ++ "\n"
            ++ ("(Fonte: " ++ citationOf docs ++ ")"))
    ∧ ("\n" ++ ("(Fonte: " ++ citationOf docs ++ ")")).data
        <:+ (ask_question (Except.ok (raw, docs))).data := by
  have heq := ask_question_nonempty_docs raw docs h2
  rw [if_neg h1] at heq
  refine ⟨pairwise_pySortedSet _, ?_, ?_, ?_⟩
  · intro s
    unfold computeSources
    rw [mem_pySortedSet, List.mem_map]
    constructor
    · rintro ⟨d, hd, hfd⟩
      exact ⟨d, hd, hfd.symm⟩
    · rintro ⟨d, hd, hfd⟩
      exact ⟨d, hd, hfd.symm⟩
  · rw [heq]
    simp only [normalizeCitation]
  · rw [heq]
    simp only [normalizeCitation]
    split
    · simp only [String.data_append, List.append_assoc]
      exact List.suffix_append _ _
    · simp only [String.data_append, List.append_assoc]
      exact List.suffix_append _ _

/-- Witness for C3: scenario B of the spec — a plain answer plus one source
document comes back with the canonical citation appended on a new line. -/
theorem C3_witness :
    pyStrip "A tolerância é 5 mm." ≠ sentinelStr
    ∧ ([(⟨"t", [("source", "docs/a.pdf")]⟩ : Document)] ≠ [])
    ∧ ask_question (Except.ok ("A tolerância é 5 mm.",
          [⟨"t", [("source", "docs/a.pdf")]⟩]))
        = "A tolerância é 5 mm.\n(Fonte: a.pdf)" :=
  ⟨by decide, List.cons_ne_nil _ _,
    ((C3_amended "A tolerância é 5 mm." [⟨"t", [("source", "docs/a.pdf")]⟩]
        (by decide) (List.cons_ne_nil _ _)).2.2.1).trans (by decide)⟩

/-- Claim C4 counterexample: citation normalization is not idempotent. The
first orchestrator pass on the answer `"A (Fonte: B"` yields an output that
carries the correct canonical citation at its end (first conjunct); running
the orchestrator's post-processing on that already-cited output changes it
(second conjunct): the unclosed `(Fonte: ` earlier in the text makes the
trailing-citation regex match a longer suffix on the second pass. -/
theorem C4_counterexample :
    ("\n(Fonte: a.pdf)".data.isSuffixOf
      (ask_question (Except.ok ("A (Fonte: B",
        [⟨"t", [("source", "docs/a.pdf")]⟩]))).data) = true
    ∧ ask_question (Except.ok
          (ask_question (Except.ok ("A (Fonte: B", [⟨"t", [("source", "docs/a.pdf")]⟩])),
           [⟨"t", [("source", "docs/a.pdf")]⟩]))
        ≠ ask_question (Except.ok ("A (Fonte: B", [⟨"t", [("source", "docs/a.pdf")]⟩])) :=
  ⟨rfl, by decide⟩

/-- Claim C4 (amended): citation normalization is idempotent on an answer of
the form `p + "\n(Fonte: " + c + ")"` provided `p` is whitespace-trimmed,
every occurrence of the marker `"(Fonte: "` inside `p` is followed by a
closing parenthesis, and the citation `c` is non-empty and contains no
closing parenthesis: re-running the normalization step returns the string
unchanged. -/
theorem C4_amended (p c : String) (hps : pyStrip p = p)
    (hu : hasUnclosedFonte p.data = false) (hc : c ≠ "") (hcp : ')' ∉ c.data) :
    normalizeCitation (p ++ "\n(Fonte: " ++ c ++ ")") c = p ++ "\n(Fonte: " ++ c ++ ")" := by
  have hcd : c.data ≠ [] := by
    intro hh
    exact hc (stringDataInj (by rw [hh]))
  have hT : (p ++ "\n(Fonte: " ++ c ++ ")").data
      = p.data ++ ('\n' :: (citMark ++ (c.data ++ [')']))) := by
    simp [String.data_append, citMark, List.append_assoc]
  have hcit : ("(Fonte: " ++ c ++ ")").data = citMark ++ (c.data ++ [')']) := by
    simp [String.data_append, citMark, List.append_assoc]
  have hcont : strContainsB (p ++ "\n(Fonte: " ++ c ++ ")") ("(Fonte: " ++ c ++ ")")
      = true := by
    unfold strContainsB
    rw [hT, hcit]
    rw [show p.data ++ ('\n' :: (citMark ++ (c.data ++ [')'])))
          = (p.data ++ ['\n']) ++ ((citMark ++ (c.data ++ [')'])) ++ []) from by
        simp [List.append_assoc]]
    exact listContainsSub_of_infix _
  have hmt : matchesCit ('\n' :: (citMark ++ (c.data ++ [')']))) = true :=
    matchesCit_suffix_true hcd hcp
  have hdrop : dropCitationSuffix ((p ++ "\n(Fonte: " ++ c ++ ")").data) = p.data := by
    rw [hT]
    exact dropCitationSuffix_through hmt (by simp)
      (fun s hs hne => matchesCit_false_of_closed hps hu hs hne)
  simp only [normalizeCitation]
  rw [if_neg (by rw [hcont]; simp), hdrop, stringMkData, hps]
  apply stringDataInj
  rw [hT]
  simp [String.data_append, citMark, List.append_assoc]

/-- Witness for C4: a trimmed, marker-free answer with its canonical citation
is a fixed point of the normalization step. -/
theorem C4_witness :
    pyStrip "Resposta final" = "Resposta final"
    ∧ hasUnclosedFonte (String.data "Resposta final") = false
    ∧ "a.pdf" ≠ ""
    ∧ ')' ∉ (String.data "a.pdf")
    ∧ normalizeCitation ("Resposta final" ++ "\n(Fonte: " ++ "a.pdf" ++ ")") "a.pdf"
        = "Resposta final" ++ "\n(Fonte: " ++ "a.pdf" ++ ")" :=
  ⟨by decide, by decide, by decide, by decide,
    C4_amended "Resposta final" "a.pdf" (by decide) (by decide) (by decide) (by decide)⟩

/-- Claim C7: an exception from retrieval or the LLM call (an `Except.error`
outcome of `chain.invoke`) is converted inside `ask_question` into the fixed
user-facing error message, and the interactive loop prints it and continues
with the remaining queries — the exception never propagates. -/
theorem C7_error_to_message (e q : String) (rest : List String)
    (oracle : String → Except String (String × List Document))
    (h1 : oracle q = Except.error e)
    (h2 : pyLower (pyStrip q) ≠ "sair") (h3 : pyStrip q ≠ "") :
    ask_question (oracle q) = errorAnswer
    ∧ runLoop oracle (q :: rest) = LoopEvent.answered errorAnswer :: runLoop oracle rest := by
  have ha : ask_question (oracle q) = errorAnswer := by rw [h1]; rfl
  refine ⟨ha, ?_⟩
  rw [← pyStrip_pyLower_comm q] at h2
  simp [runLoop, h2, h3, ha]

/-- Witness for C7: a failing oracle on a concrete query produces the fixed
apology string and the loop continues. -/
theorem C7_witness :
    ((fun _ : String => (Except.error "APIError" : Except String (String × List Document)))
        "Qual a tolerância?" = Except.error "APIError")
    ∧ pyLower (pyStrip "Qual a tolerância?") ≠ "sair"
    ∧ pyStrip "Qual a tolerância?" ≠ ""
    ∧ ask_question ((fun _ : String =>
          (Except.error "APIError" : Except String (String × List Document)))
        "Qual a tolerância?") = errorAnswer
    ∧ runLoop (fun _ => Except.error "APIError") ["Qual a tolerância?"]
        = LoopEvent.answered errorAnswer
            :: runLoop (fun _ => Except.error "APIError") [] :=
  ⟨rfl, by decide, by decide,
    (C7_error_to_message "APIError" "Qual a tolerância?" []
      (fun _ => Except.error "APIError") rfl (by decide) (by decide)).1,
    (C7_error_to_message "APIError" "Qual a tolerância?" []
      (fun _ => Except.error "APIError") rfl (by decide) (by decide)).2⟩

/-- Claim C8: the loop lowers and trims each input line (the two operations
commute); it terminates printing the farewell exactly when the trimmed input
matches the exit sentinel `sair` case-insensitively; on otherwise-blank input
it re-prompts without invoking the orchestrator; and otherwise it forwards
the raw query to `ask_question` and prints the result, continuing the loop. -/
theorem C8_loop (q : String) (rest : List String)
    (oracle : String → Except String (String × List Document)) :
    pyStrip (pyLower q) = pyLower (pyStrip q)
    ∧ (runLoop oracle (q :: rest) = [LoopEvent.farewell "Encerrando o assistente. Até logo!"]
        ↔ pyLower (pyStrip q) = "sair")
    ∧ (pyLower (pyStrip q) ≠ "sair" → pyStrip q = "" →
        runLoop oracle (q :: rest)
          = LoopEvent.reprompt "Por favor, digite uma pergunta." :: runLoop oracle rest)
    ∧ (pyLower (pyStrip q) ≠ "sair" → pyStrip q ≠ "" →
        runLoop oracle (q :: rest)
          = LoopEvent.answered (ask_question (oracle q)) :: runLoop oracle rest) := by
  have hcomm := pyStrip_pyLower_comm q
  refine ⟨hcomm, ?_, ?_, ?_⟩
  · constructor
    · intro h
      by_contra hne
      rw [← hcomm] at hne
      by_cases hq : pyStrip q = ""
      · simp [runLoop, hne, hq] at h
      · simp [runLoop, hne, hq] at h
    · intro h
      rw [← hcomm] at h
      simp [runLoop, h]
  · intro h1 h2
    rw [← hcomm] at h1
    simp [runLoop, h1, h2]
  · intro h1 h2
    rw [← hcomm] at h1
    simp [runLoop, h1, h2]

/-- Witness for C8: scenario E — the exit sentinel in mixed case with
surrounding whitespace terminates the loop with the farewell. -/
theorem C8_witness :
    pyLower (pyStrip "  SaIr  ") = "sair"
    ∧ runLoop (fun _ => Except.error "e") ["  SaIr  "]
        = [LoopEvent.farewell "Encerrando o assistente. Até logo!"] :=
  ⟨by decide,
    (C8_loop "  SaIr  " [] (fun _ => Except.error "e")).2.1.mpr (by decide)⟩
